import Mathlib

/-!
# Verification of the fork-orchestration and trace-correlation core

Shallow embedding of the Go sources of the EVM transaction debugger
(`back-end/src/debug`, `back-end/src/fork`, `back-end/cmd/fork_service`,
and the anvil process supervisor), together with proofs and refutations
of the specification's claims about them.

Modelling conventions:
* Go strings are Lean `String`s (byte indexing is modelled as character
  indexing; all relevant data is ASCII).
* Go `int` values that are always non-negative in the program (program
  counters, opcode counters, depths, ports) are `Nat`; values that can be
  negative (line numbers, parsed integers) are `Int`.
* Fallible Go functions returning `(T, error)` become `Except String T`.
* Go runtime panics (nil dereference, out-of-range indexing/slicing) are
  modelled by an explicit `panic` constructor of the result type, distinct
  from an error return.
* Go maps are association lists; a lookup of an absent key yields the
  zero value of the element type, exactly as in Go.
-/

deriving instance DecidableEq for Except

namespace Simulations

/-! ## `debug.getOpcodeNumber` (back-end/src/debug/structs.go)

The Go function walks the `0x`-prefixed hex bytecode two characters (one
EVM byte) at a time, tracking `pc` and `opcodeCounter`.  We embed it over
the character list of the bytecode string with the `0x` prefix dropped;
the loop bound `i < len(contractBytecode)-1` means an iteration runs only
while at least two characters remain, which is the `c1 :: c2 :: rest`
pattern below. -/

/-- Value of a hex digit, as accepted by Go's `strconv.ParseInt` base 16. -/
def hexDigitVal? (c : Char) : Option Nat :=
  if '0' ≤ c ∧ c ≤ '9' then some (c.toNat - '0'.toNat)
  else if 'a' ≤ c ∧ c ≤ 'f' then some (c.toNat - 'a'.toNat + 10)
  else if 'A' ≤ c ∧ c ≤ 'F' then some (c.toNat - 'A'.toNat + 10)
  else none

/-- Go `strconv.ParseInt(s, 16, 64)` on a short chunk: an optional sign
followed by at least one hex digit. -/
def parseHexInt : List Char → Option Int
  | '+' :: rest => parseHexDigits rest 0 |>.map Int.ofNat
  | '-' :: rest => parseHexDigits rest 0 |>.map (fun n => -(Int.ofNat n))
  | l => parseHexDigits l 0 |>.map Int.ofNat
where
  parseHexDigits : List Char → Nat → Option Nat
    | [], acc => some acc
    | c :: cs, acc =>
      match hexDigitVal? c with
      | none => none
      | some v => parseHexDigits cs (acc * 16 + v)

/-- The loop body of `getOpcodeNumber`: `pc`/`opcodeCounter` tracking over
the remaining hex characters.  A `PUSHn` opcode (`0x60..0x7f`) consumes
its `n` immediate bytes (`2n` characters) and, when the target PC falls
strictly inside the instruction, returns the already-incremented counter.
The `fuel` argument only makes the recursion structural: every iteration
consumes at least two characters, so with `fuel` initialised to the
character count the exhaustion branch (which returns the same not-found
error as the loop falling off the end of the bytecode) is unreachable. -/
def getOpcodeNumberAux (opcodePC : Nat) : Nat → Nat → Nat → List Char → Except String Nat
  | fuel + 1, pc, opcodeCounter, c1 :: c2 :: rest =>
    if pc = opcodePC then .ok opcodeCounter
    else
      match parseHexInt [c1, c2] with
      | none => .error "failed to parse opcode"
      | some opcodeInt =>
        let opcodeCounter' := opcodeCounter + 1
        if 0x5f < opcodeInt ∧ opcodeInt < 0x80 then
          let increment := (opcodeInt - 0x5f).toNat
          let nextPC := pc + increment + 1
          if opcodePC > pc ∧ opcodePC < nextPC then .ok opcodeCounter'
          else getOpcodeNumberAux opcodePC fuel nextPC opcodeCounter' (rest.drop (increment * 2))
        else getOpcodeNumberAux opcodePC fuel (pc + 1) opcodeCounter' rest
  | _, _, _, _ => .error "couldn't find the instruction number"

/-- `debug.Service.getOpcodeNumber`: maps a program counter to the index
of the instruction in the deployed bytecode (a `0x`-prefixed hex string). -/
def getOpcodeNumber (opcodePC : Nat) (contractBytecode : String) : Except String Nat :=
  let cs := contractBytecode.toList.drop 2
  getOpcodeNumberAux opcodePC cs.length 0 0 cs

/-- Claim C1, counterexample.  The claim asserts the E6 example
`pc_to_opcode_index(pc=1) == 0` for bytecode `0x6080604052`.  The code
increments `opcodeCounter` before the PUSH-immediate check and returns the
incremented value, so for `pc = 1` (inside the immediate of the `PUSH1` at
pc 0) it returns 1, not 0. -/
theorem claim_C1_counterexample :
    getOpcodeNumber 1 "0x6080604052" = .ok 1 ∧
      getOpcodeNumber 1 "0x6080604052" ≠ .ok 0 := by
  exact ⟨rfl, by decide⟩

/-- Claim C1, amended.  For bytecode `0x6080604052` the PC-to-opcode-index
mapping `getOpcodeNumber` returns 0 for pc=0, 1 for pc=1 (a PC inside the
PUSH1 immediate maps to the index of the following instruction, because the
opcode counter is incremented before the immediate-range check), 1 for
pc=2, 2 for pc=3 (again inside a PUSH1 immediate), and 2 for pc=4. -/
theorem claim_C1_pc_mapping_amended :
    getOpcodeNumber 0 "0x6080604052" = .ok 0 ∧
    getOpcodeNumber 1 "0x6080604052" = .ok 1 ∧
    getOpcodeNumber 2 "0x6080604052" = .ok 1 ∧
    getOpcodeNumber 3 "0x6080604052" = .ok 2 ∧
    getOpcodeNumber 4 "0x6080604052" = .ok 2 :=
  ⟨rfl, rfl, rfl, rfl, rfl⟩

/-! ## Source-map decompression (back-end/src/debug/utils.go)

`decompressSourceMap` splits the compressed map on `;`, splits each entry
on `:`, fills missing trailing fields from the previous entry, and then
`removeBlankSpaces` replaces present-but-empty fields — except the
modifier-depth field, which it never touches — with the previous entry's
value.  In the Go code `prevOpcode` is set to `currOpcode` at the end of
every iteration, so at the head of each iteration the stale `currOpcode`
(used when the `switch` matches no case, i.e. six or more fields) equals
`prevOpcode`; the embedding therefore carries a single accumulator. -/

/-- Go `strings.Split` restricted to a single-character separator (the
code only ever splits on `";"`, `":"` and `"\n"`), over the character
list: splitting the empty list yields one empty segment, and every
separator occurrence starts a new segment. -/
def splitChars (sep : Char) : List Char → List (List Char)
  | [] => [[]]
  | c :: rest =>
    let r := splitChars sep rest
    if c = sep then [] :: r
    else
      match r with
      | [] => [[c]]
      | h :: t => (c :: h) :: t

/-- Go `strings.Split(s, sep)` for a one-character `sep`, producing
strings. -/
def goSplit (s : String) (sep : Char) : List String :=
  (splitChars sep s.toList).map List.asString

/-- Source-map entry (`debug.Opcode` in structs.go); all fields are the
strings as originally emitted. -/
structure Opcode where
  Offset : String
  Length : String
  FileID : String
  JumpType : String
  ModifierDepth : String
deriving DecidableEq, Inhabited

/-- The zero value of `debug.Opcode` (Go's `var prevOpcode Opcode`). -/
def Opcode.zero : Opcode := ⟨"", "", "", "", ""⟩

/-- `debug.removeBlankSpaces`: replace the empty `Offset`, `Length`,
`FileID` and `JumpType` fields of `curr` with `prev`'s values.  The
`ModifierDepth` field is not touched. -/
def removeBlankSpaces (curr prev : Opcode) : Opcode :=
  { curr with
    Offset := if curr.Offset = "" then prev.Offset else curr.Offset
    Length := if curr.Length = "" then prev.Length else curr.Length
    FileID := if curr.FileID = "" then prev.FileID else curr.FileID
    JumpType := if curr.JumpType = "" then prev.JumpType else curr.JumpType }

/-- The `switch len(opcodeEntries)` of `decompressSourceMap`: build the
current entry from the split fields, inheriting the missing trailing
fields from the previous entry.  With no matching case (zero or at least
six fields) Go leaves `currOpcode` at its stale value, which equals
`prev`. -/
def decompressStep (prev : Opcode) (opcodeEntries : List String) : Opcode :=
  match opcodeEntries with
  | [o] => ⟨o, prev.Length, prev.FileID, prev.JumpType, prev.ModifierDepth⟩
  | [o, l] => ⟨o, l, prev.FileID, prev.JumpType, prev.ModifierDepth⟩
  | [o, l, f] => ⟨o, l, f, prev.JumpType, prev.ModifierDepth⟩
  | [o, l, f, j] => ⟨o, l, f, j, prev.ModifierDepth⟩
  | [o, l, f, j, m] => ⟨o, l, f, j, m⟩
  | _ => prev

/-- The loop of `decompressSourceMap` over the `;`-separated entries. -/
def decompressAux (prev : Opcode) : List String → List Opcode
  | [] => []
  | opcode :: rest =>
    let currOpcode := removeBlankSpaces (decompressStep prev (goSplit opcode ':')) prev
    currOpcode :: decompressAux currOpcode rest

/-- `debug.decompressSourceMap`: decompress a compressed source map into
one entry per `;`-separated segment. -/
def decompressSourceMap (sourceMap : String) : List Opcode :=
  decompressAux Opcode.zero (goSplit sourceMap ';')

/-- Modelled from the spec's words, for comparison with the code: each
entry is up to five `:`-separated fields; a field that is missing or
present-but-empty takes the value of the same field in the immediately
previous entry — including, as the claim asserts, the modifier-depth
field. -/
def specDecompressStep (prev : Opcode) (opcodeEntries : List String) : Opcode :=
  let inherit : Option String → String → String := fun v pv =>
    match v with
    | none => pv
    | some "" => pv
    | some s => s
  ⟨inherit opcodeEntries[0]? prev.Offset,
   inherit opcodeEntries[1]? prev.Length,
   inherit opcodeEntries[2]? prev.FileID,
   inherit opcodeEntries[3]? prev.JumpType,
   inherit opcodeEntries[4]? prev.ModifierDepth⟩

/-- The spec-side decompression loop built on `specDecompressStep`. -/
def specDecompressAux (prev : Opcode) : List String → List Opcode
  | [] => []
  | opcode :: rest =>
    let currOpcode := specDecompressStep prev (goSplit opcode ':')
    currOpcode :: specDecompressAux currOpcode rest

/-- Spec-side decompression of a whole compressed source map. -/
def specDecompress (sourceMap : String) : List Opcode :=
  specDecompressAux Opcode.zero (goSplit sourceMap ';')

/-- Modifier-depth inheritance as amended: missing inherits, but a
present-and-empty fifth field stays empty. -/
def amendedDecompressStep (prev : Opcode) (opcodeEntries : List String) : Opcode :=
  let inherit : Option String → String → String := fun v pv =>
    match v with
    | none => pv
    | some "" => pv
    | some s => s
  ⟨inherit opcodeEntries[0]? prev.Offset,
   inherit opcodeEntries[1]? prev.Length,
   inherit opcodeEntries[2]? prev.FileID,
   inherit opcodeEntries[3]? prev.JumpType,
   (match opcodeEntries[4]? with
    | none => prev.ModifierDepth
    | some m => m)⟩

/-- The amended decompression loop. -/
def amendedDecompressAux (prev : Opcode) : List String → List Opcode
  | [] => []
  | opcode :: rest =>
    let currOpcode := amendedDecompressStep prev (goSplit opcode ':')
    currOpcode :: amendedDecompressAux currOpcode rest

/-- Pointwise agreement of the code's step with the amended step, for
entries of at most five fields. -/
theorem decompressStep_eq_amended (prev : Opcode) (entries : List String)
    (h5 : entries.length ≤ 5) :
    removeBlankSpaces (decompressStep prev entries) prev =
      amendedDecompressStep prev entries := by
  match entries with
  | [] =>
    simp [decompressStep, amendedDecompressStep, removeBlankSpaces]
  | [o] =>
    simp only [decompressStep, amendedDecompressStep, removeBlankSpaces]
    by_cases ho : o = "" <;> simp_all [Opcode.mk.injEq]
  | [o, l] =>
    simp only [decompressStep, amendedDecompressStep, removeBlankSpaces]
    by_cases ho : o = "" <;> by_cases hl : l = "" <;>
      simp_all [Opcode.mk.injEq]
  | [o, l, f] =>
    simp only [decompressStep, amendedDecompressStep, removeBlankSpaces]
    by_cases ho : o = "" <;> by_cases hl : l = "" <;>
      by_cases hf : f = "" <;> simp_all [Opcode.mk.injEq]
  | [o, l, f, j] =>
    simp only [decompressStep, amendedDecompressStep, removeBlankSpaces]
    by_cases ho : o = "" <;> by_cases hl : l = "" <;>
      by_cases hf : f = "" <;> by_cases hj : j = "" <;>
      simp_all [Opcode.mk.injEq]
  | [o, l, f, j, m] =>
    simp only [decompressStep, amendedDecompressStep, removeBlankSpaces]
    by_cases ho : o = "" <;> by_cases hl : l = "" <;>
      by_cases hf : f = "" <;> by_cases hj : j = "" <;>
      simp_all [Opcode.mk.injEq]
  | _ :: _ :: _ :: _ :: _ :: _ :: _ => simp at h5

/-- Agreement of the loops under the same field-count bound. -/
theorem decompressAux_eq_amended (segs : List String) :
    ∀ prev, (∀ seg ∈ segs, (goSplit seg ':').length ≤ 5) →
      decompressAux prev segs = amendedDecompressAux prev segs := by
  induction segs with
  | nil => intro prev _; rfl
  | cons seg rest ih =>
    intro prev h
    have hseg : (goSplit seg ':').length ≤ 5 := h seg (List.mem_cons_self ..)
    rw [decompressAux, amendedDecompressAux,
      decompressStep_eq_amended prev _ hseg,
      ih _ (fun s hs => h s (List.mem_cons_of_mem _ hs))]

/-- The amended decompression of a whole compressed source map. -/
def amendedDecompress (sourceMap : String) : List Opcode :=
  amendedDecompressAux Opcode.zero (goSplit sourceMap ';')

/-- The decompression loop produces one output entry per input segment. -/
theorem decompressAux_length (segs : List String) :
    ∀ prev, (decompressAux prev segs).length = segs.length := by
  induction segs with
  | nil => intro prev; rfl
  | cons seg rest ih =>
    intro prev
    simp [decompressAux, ih]

/-- Claim C3, counterexample.  The claim asserts that a present-but-empty
modifier-depth field inherits the previous entry's value.  For the
compressed map `1:2:3:4:5;6:7:8:9:` the second entry's fifth field is
present but empty, and `removeBlankSpaces` never fills the modifier-depth
field, so the decompressed second entry carries modifier depth `""`
rather than the inherited `"5"`. -/
theorem claim_C3_counterexample :
    (decompressSourceMap "1:2:3:4:5;6:7:8:9:").map Opcode.ModifierDepth = ["5", ""] ∧
      (decompressSourceMap "1:2:3:4:5;6:7:8:9:").map Opcode.ModifierDepth ≠ ["5", "5"] := by
  constructor
  · rfl
  · decide

/-- Claim C3, amended.  For every compressed source-map string whose
segments each split into at most five `:`-separated fields,
`decompressSourceMap` produces one entry per `;`-separated segment, and
every missing or present-but-empty field inherits the previous entry's
value — except the modifier-depth field, which inherits only when it is
missing and stays empty when present-but-empty (the amended inheritance
rule captured by `amendedDecompress`). -/
theorem claim_C3_decompress_amended (sourceMap : String)
    (h : ∀ seg ∈ goSplit sourceMap ';', (goSplit seg ':').length ≤ 5) :
    decompressSourceMap sourceMap = amendedDecompress sourceMap ∧
      (decompressSourceMap sourceMap).length = (goSplit sourceMap ';').length :=
  ⟨decompressAux_eq_amended _ _ h, decompressAux_length _ _⟩

/-- Claim C3, witness for the amended theorem at the concrete compressed
map `1:2:3:4:-;:::;7`. -/
theorem claim_C3_decompress_amended_witness :
    decompressSourceMap "1:2:3:4:-;:::;7" = amendedDecompress "1:2:3:4:-;:::;7" ∧
      (decompressSourceMap "1:2:3:4:-;:::;7").length =
        (goSplit "1:2:3:4:-;:::;7" ';').length :=
  claim_C3_decompress_amended "1:2:3:4:-;:::;7" (by decide)

/-! ## The struct-log walk of `debug.Service.DebugTransaction`
(back-end/src/debug/structs.go, lines 265–409)

The walk consumes the struct logs with the contract map and the fetched
revert reason already in hand; the RPC orchestration that produces them
is outside the walk and is passed in as data.  Go map accesses with an
absent key produce the zero value of `ContractEntry`, which is modelled
explicitly. -/

/-- Go `strconv.Atoi`: an optional sign followed by at least one decimal
digit (64-bit overflow is not modelled; the parsed values here are small). -/
def goAtoi (s : String) : Option Int :=
  match s.toList with
  | '+' :: rest => (digits rest 0).map Int.ofNat
  | '-' :: rest => (digits rest 0).map (fun n => -(Int.ofNat n))
  | l => (digits l 0).map Int.ofNat
where
  digits : List Char → Nat → Option Nat
    | [], _ => none
    | [c], acc => if '0' ≤ c ∧ c ≤ '9' then some (acc * 10 + (c.toNat - '0'.toNat)) else none
    | c :: cs, acc =>
      if '0' ≤ c ∧ c ≤ '9' then digits cs (acc * 10 + (c.toNat - '0'.toNat)) else none

/-- Go `strings.Contains(s, pat)`: `pat` occurs as a contiguous substring
of `s`. -/
def strContains (s pat : String) : Bool :=
  containsAux s.toList pat.toList
where
  containsAux : List Char → List Char → Bool
    | l, pat => if pat.isPrefixOf l then true else
        match l with
        | [] => false
        | _ :: rest => containsAux rest pat

/-- Lookup in a Go map modelled as an association list. -/
def goLookup {α : Type} (m : List (String × α)) (k : String) : Option α :=
  match m with
  | [] => none
  | (k', v) :: rest => if k' = k then some v else goLookup rest k

/-- Outcome of a Go call that can return normally, return an error, or
panic at runtime. -/
inductive GoResult (α : Type) where
  | ok (a : α)
  | err (msg : String)
  | panic (msg : String)
deriving DecidableEq

/-- `debug.getLineNumber`: parse the byte offset with `Atoi` (an error
return aborts the whole `DebugTransaction`), slice the source up to the
offset — a Go slice `sourceCode[:n]` panics when `n` is negative or past
the end — and count the `"\n"`-separated segments of the prefix. -/
def getLineNumber (sourceCode : String) (bytesOffset : String) : GoResult Int :=
  match goAtoi bytesOffset with
  | none => .err "invalid syntax"
  | some n =>
    if n < 0 ∨ (sourceCode.toList.length : Int) < n then
      .panic "slice bounds out of range"
    else
      .ok ((splitChars '\n' (sourceCode.toList.take n.toNat)).length : Int)

/-- `debug.fileIdValid`: the file id parses as a base-10 integer in
`[0, len(fileIds))`. -/
def fileIdValid (fileId : String) (fileIds : List (String × String)) : Bool :=
  match goAtoi fileId with
  | none => false
  | some n => n < (fileIds.length : Int) ∧ 0 ≤ n

/-- `debug.isTargetOpcode`: the filter set of the emitted trace. -/
def isTargetOpcode (opcode : String) : Bool :=
  ["CALL", "DELEGATECALL", "STATICCALL", "CREATE", "CREATE2",
   "SLOAD", "SSTORE", "LOG0", "LOG1", "LOG2", "LOG3", "LOG4",
   "REVERT", "JUMP"].contains opcode

/-- One record of the opcode-level struct-log stream (`evm.StructLogs`);
only the fields the walk reads are modelled. -/
structure StructLog where
  depth : Nat
  op : String
  pc : Nat
deriving DecidableEq

/-- `debug.CallTrace`: one emitted, line-annotated trace entry. -/
structure CallTrace where
  Opcode : String
  LineNumber : Int
  File : String
  ContractAddress : String
  Depth : Nat
deriving DecidableEq, Inhabited

/-- `debug.ContractEntry`: per-depth contract metadata built from the
call trace.  `sourceCodes` and `fileNames` are Go maps (association
lists); `decompressedSourceMap` is the decompressed source map. -/
structure ContractEntry where
  address : String
  bytecode : String
  sourceCodes : List (String × String)
  fileNames : List (String × String)
  decompressedSourceMap : List Opcode
deriving DecidableEq

/-- The zero value of `ContractEntry`, produced by a Go map access with
an absent depth key. -/
def ContractEntry.zero : ContractEntry := ⟨"", "", [], [], []⟩

/-- `contractMap[structLog.Depth]` with Go's absent-key zero value. -/
def contractMapGet (m : List (Nat × ContractEntry)) (depth : Nat) : ContractEntry :=
  match m with
  | [] => ContractEntry.zero
  | (d, e) :: rest => if d = depth then e else contractMapGet rest depth

/-- The unverified-contract test repeated at structs.go:290–298: the
source map has exactly one file, named `unverified.sol`, whose content
contains `"No source code available"`. -/
def isUnverifiedContract (sourceCodes : List (String × String)) : Bool :=
  match sourceCodes with
  | [(filename, content)] =>
    filename = "unverified.sol" ∧ strContains content "No source code available"
  | _ => false

/-- One iteration of the struct-log loop: given the accumulated filtered
opcodes, produce the new accumulator, or abort (error return), or panic.
Mirrors structs.go:283–407. -/
def processStructLog (contractMap : List (Nat × ContractEntry))
    (structLog : StructLog) (filteredOpcodes : List CallTrace) :
    GoResult (List CallTrace) :=
  let contract := contractMapGet contractMap structLog.depth
  if isUnverifiedContract contract.sourceCodes then
    if isTargetOpcode structLog.op then
      .ok (filteredOpcodes ++
        [⟨structLog.op, 1, "unverified.sol", contract.address, structLog.depth⟩])
    else .ok filteredOpcodes
  else
    match getOpcodeNumber structLog.pc contract.bytecode with
    | .error _ =>
      if isTargetOpcode structLog.op then
        .ok (filteredOpcodes ++
          [⟨structLog.op, -1, "unknown", contract.address, structLog.depth⟩])
      else .ok filteredOpcodes
    | .ok opcodeNumber =>
      if contract.decompressedSourceMap.length ≤ opcodeNumber then
        if isTargetOpcode structLog.op then
          .ok (filteredOpcodes ++
            [⟨structLog.op, -1, "unknown", contract.address, structLog.depth⟩])
        else .ok filteredOpcodes
      else
        if isTargetOpcode structLog.op then
          let entry := contract.decompressedSourceMap.getD opcodeNumber Opcode.zero
          let fileId := entry.FileID
          let jumpType := entry.JumpType
          if structLog.op = "JUMP" ∧ jumpType = "-" then .ok filteredOpcodes
          else if ¬ fileIdValid fileId contract.sourceCodes then .ok filteredOpcodes
          else
            match goLookup contract.fileNames fileId with
            | none => .ok filteredOpcodes
            | some fileName =>
              match goLookup contract.sourceCodes fileName with
              | none => .ok filteredOpcodes
              | some sourceCode =>
                match getLineNumber sourceCode entry.Offset with
                | .err m => .err m
                | .panic m => .panic m
                | .ok lineNumber =>
                  if filteredOpcodes ≠ [] ∧
                      (filteredOpcodes.getLastD default).LineNumber = lineNumber ∧
                      structLog.op ≠ "RETURN" then
                    .ok filteredOpcodes
                  else
                    .ok (filteredOpcodes ++
                      [⟨structLog.op, lineNumber, fileName, contract.address,
                        structLog.depth⟩])
        else .ok filteredOpcodes

/-- The struct-log loop (structs.go:283–407). -/
def processStructLogs (contractMap : List (Nat × ContractEntry)) :
    List StructLog → List CallTrace → GoResult (List CallTrace)
  | [], filteredOpcodes => .ok filteredOpcodes
  | structLog :: rest, filteredOpcodes =>
    match processStructLog contractMap structLog filteredOpcodes with
    | .ok filteredOpcodes' => processStructLogs contractMap rest filteredOpcodes'
    | .err m => .err m
    | .panic m => .panic m

/-- Result of `DebugTransaction`'s tail: the returned error line, error
message and filtered trace; or an error return; or a runtime panic. -/
inductive DebugOutcome where
  | ok (lastLine : Int) (errorMessage : String) (trace : List CallTrace)
  | err (msg : String)
  | panic (msg : String)
deriving DecidableEq

/-- The tail of `debug.Service.DebugTransaction` (structs.go:265–409):
turn the revert reason into the reported message, reject an empty
struct-log stream with the `no debug trace detected` error, walk the
struct logs, and finally index `filteredOpcodes[len(filteredOpcodes)-1]`
— a Go indexing that panics when the filtered list is empty. -/
def debugTransactionCore (contractMap : List (Nat × ContractEntry))
    (structLogs : List StructLog) (revertReason : String) : DebugOutcome :=
  let errorMessage :=
    if revertReason = "0x" ∨ revertReason = "" then "Transaction successful!"
    else revertReason
  if structLogs.length = 0 then .err "no debug trace detected"
  else
    match processStructLogs contractMap structLogs [] with
    | .err m => .err m
    | .panic m => .panic m
    | .ok filteredOpcodes =>
      match filteredOpcodes.getLast? with
      | none => .panic "index out of range [-1]"
      | some last => .ok last.LineNumber errorMessage filteredOpcodes

/-- Case analysis of one loop iteration: it aborts, panics, keeps the
accumulator, or appends exactly one entry.  An appended entry carries the
struct log's opcode and depth, its opcode passed the target filter, and —
the same-line invariant — when its line number equals the previous last
entry's, it came from the unverified branch (file `unverified.sol`,
line 1) or a degraded branch (file `unknown`, line -1), never from the
source-resolved branch, whose collapse check skips same-line emissions. -/
theorem processStructLog_cases (cmap : List (Nat × ContractEntry)) (log : StructLog)
    (acc : List CallTrace) :
    (∃ m, processStructLog cmap log acc = .err m) ∨
    (∃ m, processStructLog cmap log acc = .panic m) ∨
    processStructLog cmap log acc = .ok acc ∨
    (∃ t, processStructLog cmap log acc = .ok (acc ++ [t]) ∧
      t.Opcode = log.op ∧ t.Depth = log.depth ∧ isTargetOpcode log.op = true ∧
      (∀ l ∈ acc.getLast?, t.LineNumber = l.LineNumber →
        (t.File = "unverified.sol" ∧ t.LineNumber = 1) ∨
        (t.File = "unknown" ∧ t.LineNumber = -1))) := by
  by_cases hU : isUnverifiedContract (contractMapGet cmap log.depth).sourceCodes = true
  · by_cases hT : isTargetOpcode log.op = true
    · right; right; right
      exact ⟨⟨log.op, 1, "unverified.sol", (contractMapGet cmap log.depth).address, log.depth⟩,
        by simp [processStructLog, hU, hT], rfl, rfl, hT, fun l _ _ => Or.inl ⟨rfl, rfl⟩⟩
    · right; right; left
      simp [processStructLog, hU, hT]
  · cases hop : getOpcodeNumber log.pc (contractMapGet cmap log.depth).bytecode with
    | error e =>
      by_cases hT : isTargetOpcode log.op = true
      · right; right; right
        exact ⟨⟨log.op, -1, "unknown", (contractMapGet cmap log.depth).address, log.depth⟩,
          by simp [processStructLog, hU, hop, hT], rfl, rfl, hT, fun l _ _ => Or.inr ⟨rfl, rfl⟩⟩
      · right; right; left
        simp [processStructLog, hU, hop, hT]
    | ok num =>
      by_cases hB : (contractMapGet cmap log.depth).decompressedSourceMap.length ≤ num
      · by_cases hT : isTargetOpcode log.op = true
        · right; right; right
          exact ⟨⟨log.op, -1, "unknown", (contractMapGet cmap log.depth).address, log.depth⟩,
            by simp [processStructLog, hU, hop, hB, hT], rfl, rfl, hT, fun l _ _ => Or.inr ⟨rfl, rfl⟩⟩
        · right; right; left
          simp [processStructLog, hU, hop, hB, hT]
      · by_cases hT : isTargetOpcode log.op = true
        · by_cases hJ : log.op = "JUMP" ∧
            ((contractMapGet cmap log.depth).decompressedSourceMap[num]?.getD Opcode.zero).JumpType = "-"
          · right; right; left
            simp [processStructLog, hU, hop, hB, hT, hJ]
          · by_cases hV : fileIdValid
                ((contractMapGet cmap log.depth).decompressedSourceMap[num]?.getD Opcode.zero).FileID
                (contractMapGet cmap log.depth).sourceCodes = true
            · cases hFN : goLookup (contractMapGet cmap log.depth).fileNames
                  ((contractMapGet cmap log.depth).decompressedSourceMap[num]?.getD Opcode.zero).FileID with
              | none =>
                right; right; left
                simp [processStructLog, hU, hop, hB, hT, hJ, hV, hFN]
              | some fileName =>
                cases hSC : goLookup (contractMapGet cmap log.depth).sourceCodes fileName with
                | none =>
                  right; right; left
                  simp [processStructLog, hU, hop, hB, hT, hJ, hV, hFN, hSC]
                | some sourceCode =>
                  cases hLN : getLineNumber sourceCode
                      ((contractMapGet cmap log.depth).decompressedSourceMap[num]?.getD Opcode.zero).Offset with
                  | err m =>
                    left
                    exact ⟨m, by simp [processStructLog, hU, hop, hB, hT, hJ, hV, hFN, hSC, hLN]⟩
                  | panic m =>
                    right; left
                    exact ⟨m, by simp [processStructLog, hU, hop, hB, hT, hJ, hV, hFN, hSC, hLN]⟩
                  | ok lineNumber =>
                    by_cases hD : acc ≠ [] ∧ (acc.getLast?.getD default).LineNumber = lineNumber ∧
                        log.op ≠ "RETURN"
                    · right; right; left
                      simp [processStructLog, hU, hop, hB, hT, hJ, hV, hFN, hSC, hLN, hD]
                    · right; right; right
                      refine ⟨⟨log.op, lineNumber, fileName,
                          (contractMapGet cmap log.depth).address, log.depth⟩,
                        ?_, rfl, rfl, hT, ?_⟩
                      · simp [processStructLog, hU, hop, hB, hT, hJ, hV, hFN, hSC, hLN, hD]
                      · intro l hl hline
                        exfalso
                        apply hD
                        refine ⟨?_, ?_, ?_⟩
                        · intro hnil
                          rw [hnil] at hl
                          simp at hl
                        · rw [hl]
                          exact hline.symm
                        · intro hret
                          rw [hret] at hT
                          exact absurd hT (by decide)
            · right; right; left
              simp [processStructLog, hU, hop, hB, hT, hJ, hV]
        · right; right; left
          simp [processStructLog, hU, hop, hB, hT]

/-- The walk only ever appends: the emitted `(opcode, depth)` pairs form
a subsequence of the accumulator's followed by the remaining logs'. -/
theorem processStructLogs_sublist (cmap : List (Nat × ContractEntry))
    (logs : List StructLog) :
    ∀ acc res, processStructLogs cmap logs acc = .ok res →
      (res.map fun t => (t.Opcode, t.Depth)).Sublist
        ((acc.map fun t => (t.Opcode, t.Depth)) ++ (logs.map fun l => (l.op, l.depth))) := by
  induction logs with
  | nil =>
    intro acc res h
    cases h
    simp
  | cons log rest ih =>
    intro acc res h
    rw [processStructLogs] at h
    rcases processStructLog_cases cmap log acc with ⟨m, hm⟩ | ⟨m, hm⟩ | hm | ⟨t, hm, hop, hdep, _, _⟩
    · rw [hm] at h; cases h
    · rw [hm] at h; cases h
    · rw [hm] at h
      have := ih acc res h
      refine this.trans ?_
      refine List.Sublist.append_left ?_ _
      exact List.sublist_cons_self _ _
    · rw [hm] at h
      have := ih (acc ++ [t]) res h
      refine this.trans ?_
      rw [List.map_append, List.append_assoc]
      refine List.Sublist.append_left ?_ _
      simp [hop, hdep]
/-- Every entry the walk appends passed the target-opcode filter. -/
theorem processStructLogs_targets (cmap : List (Nat × ContractEntry))
    (logs : List StructLog) :
    ∀ acc res, processStructLogs cmap logs acc = .ok res →
      (∀ t ∈ acc, isTargetOpcode t.Opcode = true) →
      ∀ t ∈ res, isTargetOpcode t.Opcode = true := by
  induction logs with
  | nil =>
    intro acc res h hacc
    cases h
    exact hacc
  | cons log rest ih =>
    intro acc res h hacc
    rw [processStructLogs] at h
    rcases processStructLog_cases cmap log acc with ⟨m, hm⟩ | ⟨m, hm⟩ | hm | ⟨t, hm, hop, _, htgt, _⟩
    · rw [hm] at h; cases h
    · rw [hm] at h; cases h
    · rw [hm] at h
      exact ih acc res h hacc
    · rw [hm] at h
      refine ih (acc ++ [t]) res h ?_
      intro u hu
      rcases List.mem_append.mp hu with hu | hu
      · exact hacc u hu
      · rw [List.mem_singleton.mp hu, hop]
        exact htgt

/-- Adjacent-entry relation of the same-line invariant: a successor with
the same line number is a placeholder entry. -/
def sameLinePlaceholder (a b : CallTrace) : Prop :=
  b.LineNumber = a.LineNumber →
    (b.File = "unverified.sol" ∧ b.LineNumber = 1) ∨
    (b.File = "unknown" ∧ b.LineNumber = -1)

/-- The walk preserves the same-line invariant along the accumulator. -/
theorem processStructLogs_chain (cmap : List (Nat × ContractEntry))
    (logs : List StructLog) :
    ∀ acc res, processStructLogs cmap logs acc = .ok res →
      List.Chain' sameLinePlaceholder acc →
      List.Chain' sameLinePlaceholder res := by
  induction logs with
  | nil =>
    intro acc res h hacc
    cases h
    exact hacc
  | cons log rest ih =>
    intro acc res h hacc
    rw [processStructLogs] at h
    rcases processStructLog_cases cmap log acc with ⟨m, hm⟩ | ⟨m, hm⟩ | hm | ⟨t, hm, _, _, _, hline⟩
    · rw [hm] at h; cases h
    · rw [hm] at h; cases h
    · rw [hm] at h
      exact ih acc res h hacc
    · rw [hm] at h
      refine ih (acc ++ [t]) res h ?_
      rw [List.chain'_append]
      refine ⟨hacc, List.chain'_singleton t, ?_⟩
      intro x hx y hy
      rw [List.head?_cons, Option.mem_some_iff] at hy
      subst hy
      intro hl
      exact hline x hx hl

/-- Inversion of a successful `debugTransactionCore` run: the walk
produced the returned trace, the message is the revert-reason mapping,
and the returned line is the last entry's. -/
theorem debugTransactionCore_ok_inv (cmap : List (Nat × ContractEntry))
    (logs : List StructLog) (reason : String) (line : Int) (msg : String)
    (trace : List CallTrace)
    (h : debugTransactionCore cmap logs reason = .ok line msg trace) :
    processStructLogs cmap logs [] = .ok trace ∧
      msg = (if reason = "0x" ∨ reason = "" then "Transaction successful!" else reason) ∧
      ∃ last, trace.getLast? = some last ∧ line = last.LineNumber := by
  unfold debugTransactionCore at h
  by_cases hlen : logs.length = 0
  · rw [if_pos hlen] at h
    cases h
  · rw [if_neg hlen] at h
    cases hw : processStructLogs cmap logs [] with
    | err m => rw [hw] at h; exact absurd h (by simp)
    | panic m => rw [hw] at h; exact absurd h (by simp)
    | ok res =>
      rw [hw] at h
      dsimp only at h
      cases hL : res.getLast? with
      | none => rw [hL] at h; exact absurd h (by simp)
      | some last =>
        rw [hL] at h
        dsimp only at h
        rw [DebugOutcome.ok.injEq] at h
        obtain ⟨h1, h2, h3⟩ := h
        subst h1 h2 h3
        exact ⟨rfl, rfl, last, hL, rfl⟩

/-- Claim C2, theorem at the failing input.  A non-empty struct-log
stream none of whose records is emitted (here a single `ADD`, which is
not a target opcode) drives `DebugTransaction` into the final indexing
`filteredOpcodes[len(filteredOpcodes)-1]` with an empty list — a runtime
panic, not the `no debug trace detected` error, which the code returns
only when the struct-log stream itself is empty. -/
theorem claim_C2_no_debug_trace_bug :
    debugTransactionCore [] [⟨1, "ADD", 0⟩] "" = .panic "index out of range [-1]" ∧
      debugTransactionCore [] [] "" = .err "no debug trace detected" :=
  ⟨rfl, rfl⟩

/-- Claim C4 as stated: for any two adjacent emitted entries with
identical `(file, line, address)` triples, the second entry's opcode is
`RETURN`. -/
def sameLineCollapse (trace : List CallTrace) : Prop :=
  List.Chain'
    (fun a b =>
      a.File = b.File ∧ a.LineNumber = b.LineNumber ∧
        a.ContractAddress = b.ContractAddress → b.Opcode = "RETURN")
    trace

/-- Claim C4, counterexample.  Two adjacent `SLOAD`s of an unverified
contract are both emitted with the identical triple
`("unverified.sol", 1, "0xdead")` — the unverified branch performs no
same-line collapse — and the second opcode is `SLOAD`, not `RETURN`. -/
theorem claim_C4_counterexample :
    debugTransactionCore
        [(1, ⟨"0xdead", "0x00",
          [("unverified.sol", "// No source code available - contract is not verified")],
          [("0", "unverified.sol")], []⟩)]
        [⟨1, "SLOAD", 0⟩, ⟨1, "SLOAD", 1⟩] "" =
      .ok 1 "Transaction successful!"
        [⟨"SLOAD", 1, "unverified.sol", "0xdead", 1⟩,
         ⟨"SLOAD", 1, "unverified.sol", "0xdead", 1⟩] ∧
      ¬ sameLineCollapse
        [⟨"SLOAD", 1, "unverified.sol", "0xdead", 1⟩,
         ⟨"SLOAD", 1, "unverified.sol", "0xdead", 1⟩] := by
  refine ⟨rfl, fun h => ?_⟩
  have := (List.chain'_cons.mp h).1 ⟨rfl, rfl, rfl⟩
  simp at this

/-- Claim C4, amended.  In every trace emitted by `DebugTransaction`,
for any two adjacent emitted entries with the same line number — in
particular with identical `(file, line, address)` triples — the second
entry is a placeholder: either from the unverified branch (file
`unverified.sol`, line 1) or from a degraded branch (file `unknown`,
line -1).  The source-resolved branch never emits an entry with the same
line number as its predecessor (its collapse check compares only line
numbers, and `RETURN` is not a target opcode, so the `RETURN` exception
is dead). -/
theorem claim_C4_same_line_amended (cmap : List (Nat × ContractEntry))
    (logs : List StructLog) (reason : String) (line : Int) (msg : String)
    (trace : List CallTrace)
    (h : debugTransactionCore cmap logs reason = .ok line msg trace) :
    ∀ (i : Nat) (hi : i < trace.length - 1),
      (trace.get ⟨i + 1, by omega⟩).LineNumber = (trace.get ⟨i, by omega⟩).LineNumber →
        ((trace.get ⟨i + 1, by omega⟩).File = "unverified.sol" ∧
            (trace.get ⟨i + 1, by omega⟩).LineNumber = 1) ∨
        ((trace.get ⟨i + 1, by omega⟩).File = "unknown" ∧
            (trace.get ⟨i + 1, by omega⟩).LineNumber = -1) := by
  obtain ⟨hw, -, -⟩ := debugTransactionCore_ok_inv cmap logs reason line msg trace h
  have hchain := processStructLogs_chain cmap logs [] trace hw List.chain'_nil
  exact List.chain'_iff_get.mp hchain

/-- Claim C4, witness for the amended theorem: the two-`SLOAD`
unverified run, instantiated at the adjacent pair `(0, 1)` — the second
entry of the same-line pair is indeed an unverified-branch placeholder. -/
theorem claim_C4_same_line_amended_witness :
    ((([⟨"SLOAD", 1, "unverified.sol", "0xdead", 1⟩,
        ⟨"SLOAD", 1, "unverified.sol", "0xdead", 1⟩] : List CallTrace).get
          ⟨0 + 1, by decide⟩).File = "unverified.sol" ∧
      (([⟨"SLOAD", 1, "unverified.sol", "0xdead", 1⟩,
        ⟨"SLOAD", 1, "unverified.sol", "0xdead", 1⟩] : List CallTrace).get
          ⟨0 + 1, by decide⟩).LineNumber = 1) ∨
    ((([⟨"SLOAD", 1, "unverified.sol", "0xdead", 1⟩,
        ⟨"SLOAD", 1, "unverified.sol", "0xdead", 1⟩] : List CallTrace).get
          ⟨0 + 1, by decide⟩).File = "unknown" ∧
      (([⟨"SLOAD", 1, "unverified.sol", "0xdead", 1⟩,
        ⟨"SLOAD", 1, "unverified.sol", "0xdead", 1⟩] : List CallTrace).get
          ⟨0 + 1, by decide⟩).LineNumber = -1) :=
  claim_C4_same_line_amended
    [(1, ⟨"0xdead", "0x00",
      [("unverified.sol", "// No source code available - contract is not verified")],
      [("0", "unverified.sol")], []⟩)]
    [⟨1, "SLOAD", 0⟩, ⟨1, "SLOAD", 1⟩] "" 1 "Transaction successful!"
    [⟨"SLOAD", 1, "unverified.sol", "0xdead", 1⟩,
     ⟨"SLOAD", 1, "unverified.sol", "0xdead", 1⟩] rfl 0 (by decide) rfl

/-- Claim C8.  For every struct-log stream (and contract map and revert
reason), the trace a successful `DebugTransaction` walk emits is a
subsequence of the struct-log stream — the emitted `(opcode, depth)`
pairs appear in struct-log order — and every emitted opcode belongs to
the target set checked by `isTargetOpcode`. -/
theorem claim_C8_trace_filter_monotone (cmap : List (Nat × ContractEntry))
    (logs : List StructLog) (reason : String) (line : Int) (msg : String)
    (trace : List CallTrace)
    (h : debugTransactionCore cmap logs reason = .ok line msg trace) :
    (trace.map fun t => (t.Opcode, t.Depth)).Sublist
        (logs.map fun l => (l.op, l.depth)) ∧
      ∀ t ∈ trace, isTargetOpcode t.Opcode = true := by
  obtain ⟨hw, -, -⟩ := debugTransactionCore_ok_inv cmap logs reason line msg trace h
  constructor
  · simpa using processStructLogs_sublist cmap logs [] trace hw
  · exact processStructLogs_targets cmap logs [] trace hw (by simp)

/-- Claim C8, witness: a one-`SLOAD` unverified run emits a single
`SLOAD` entry, a subsequence of the stream with a target opcode. -/
theorem claim_C8_trace_filter_monotone_witness :
    (([⟨"SLOAD", 1, "unverified.sol", "0xdead", 1⟩] : List CallTrace).map
        fun t => (t.Opcode, t.Depth)).Sublist
        (([⟨1, "SLOAD", 0⟩] : List StructLog).map fun l => (l.op, l.depth)) ∧
      ∀ t ∈ ([⟨"SLOAD", 1, "unverified.sol", "0xdead", 1⟩] : List CallTrace),
        isTargetOpcode t.Opcode = true :=
  claim_C8_trace_filter_monotone
    [(1, ⟨"0xdead", "0x00",
      [("unverified.sol", "// No source code available - contract is not verified")],
      [("0", "unverified.sol")], []⟩)]
    [⟨1, "SLOAD", 0⟩] "" 1 "Transaction successful!"
    [⟨"SLOAD", 1, "unverified.sol", "0xdead", 1⟩] rfl

/-! ## `evm.Service.GetTransactionErrorMessage`
(back-end/cmd/fork_service/controller.go, lines 694–747)

The function fetches the transaction receipt; the RPC transport is
outside the embedding, so the decoded receipt is the input. -/

/-- One receipt log as decoded by the function. -/
structure ReceiptLog where
  topics : List String
  data : String
deriving DecidableEq

/-- The decoded receipt: status and logs. -/
structure Receipt where
  status : String
  logs : List ReceiptLog
deriving DecidableEq

/-- keccak256("Error(string)"), the first topic the scan looks for. -/
def errorStringTopic : String :=
  "0x08c379a0afcc32b1a39302f7cb8073359698411ab5fd6e3edb2c02c0b5fba8aa"

/-- The receipt-log scan: return the data of the first log whose first
topic is the `Error(string)` topic and whose data is longer than 138
characters (`0x` + 64-char offset + 64-char length + at least one data
character); a matching topic with short data falls through to the next
log. -/
def findRevertData : List ReceiptLog → Option String
  | [] => none
  | log :: rest =>
    if log.topics.head? = some errorStringTopic ∧ 138 < log.data.length then
      some log.data
    else findRevertData rest

/-- `evm.Service.GetTransactionErrorMessage` on the decoded receipt: the
empty string for a successful receipt, otherwise the scanned revert data
or the `"Transaction Failed"` fallback. -/
def GetTransactionErrorMessage (receipt : Receipt) : String :=
  if receipt.status = "0x1" then ""
  else
    match findRevertData receipt.logs with
    | some data => data
    | none => "Transaction Failed"

/-- Characterisation of the scan: either some log matches (topic and
length) and the first such log's data is returned, or no log matches and
the scan is empty. -/
theorem findRevertData_spec (logs : List ReceiptLog) :
    (∃ log ∈ logs, log.topics.head? = some errorStringTopic ∧
      138 < log.data.length ∧ findRevertData logs = some log.data) ∨
    (findRevertData logs = none ∧
      ∀ log ∈ logs, log.topics.head? = some errorStringTopic →
        log.data.length ≤ 138) := by
  induction logs with
  | nil => right; exact ⟨rfl, by simp⟩
  | cons log rest ih =>
    by_cases hc : log.topics.head? = some errorStringTopic ∧ 138 < log.data.length
    · left
      exact ⟨log, List.mem_cons_self .., hc.1, hc.2, by simp [findRevertData, hc]⟩
    · rcases ih with ⟨l, hl, h1, h2, h3⟩ | ⟨h1, h2⟩
      · left
        exact ⟨l, List.mem_cons_of_mem _ hl, h1, h2, by simpa [findRevertData, hc] using h3⟩
      · right
        refine ⟨by simpa [findRevertData, hc] using h1, ?_⟩
        intro l hl htopic
        rcases List.mem_cons.mp hl with hl | hl
        · subst hl
          by_contra hlen
          exact hc ⟨htopic, by omega⟩
        · exact h2 l hl htopic

/-- Claim C7, counterexample.  On a failed receipt with no logs at all
(status `0x0`, empty log list) the function returns the fallback string
`"Transaction Failed"`, which is not the data field of any receipt log
carrying the `Error(string)` topic — there is no such log. -/
theorem claim_C7_counterexample :
    GetTransactionErrorMessage ⟨"0x0", []⟩ = "Transaction Failed" ∧
      ¬ (∃ log ∈ (Receipt.mk "0x0" []).logs,
          log.topics.head? = some errorStringTopic ∧
          GetTransactionErrorMessage ⟨"0x0", []⟩ = log.data) := by
  exact ⟨rfl, by simp⟩

/-- Claim C7, amended.  `GetTransactionErrorMessage` returns the empty
string whenever the receipt status is `0x1`; otherwise it returns the
raw data field of the first receipt log whose first topic is the
`Error(string)` topic and whose data is longer than 138 characters, and
the fallback `"Transaction Failed"` when no such log exists.
`DebugTransaction` reports `"Transaction successful!"` when the fetched
revert reason is empty or `0x`, and otherwise reports the raw returned
string. -/
theorem claim_C7_error_message_amended (receipt : Receipt)
    (cmap : List (Nat × ContractEntry)) (logs : List StructLog)
    (reason : String) (line : Int) (msg : String) (trace : List CallTrace)
    (h : debugTransactionCore cmap logs reason = .ok line msg trace) :
    (receipt.status = "0x1" → GetTransactionErrorMessage receipt = "") ∧
    (receipt.status ≠ "0x1" →
      (∃ log ∈ receipt.logs, log.topics.head? = some errorStringTopic ∧
        138 < log.data.length ∧ GetTransactionErrorMessage receipt = log.data) ∨
      (GetTransactionErrorMessage receipt = "Transaction Failed" ∧
        ∀ log ∈ receipt.logs, log.topics.head? = some errorStringTopic →
          log.data.length ≤ 138)) ∧
    ((reason = "0x" ∨ reason = "") → msg = "Transaction successful!") ∧
    (¬ (reason = "0x" ∨ reason = "") → msg = reason) := by
  obtain ⟨-, hmsg, -⟩ := debugTransactionCore_ok_inv cmap logs reason line msg trace h
  refine ⟨?_, ?_, ?_, ?_⟩
  · intro hs
    simp [GetTransactionErrorMessage, hs]
  · intro hs
    rcases findRevertData_spec receipt.logs with ⟨l, hl, h1, h2, h3⟩ | ⟨h1, h2⟩
    · left
      exact ⟨l, hl, h1, h2, by simp [GetTransactionErrorMessage, hs, h3]⟩
    · right
      exact ⟨by simp [GetTransactionErrorMessage, hs, h1], h2⟩
  · intro hr
    rw [hmsg, if_pos hr]
  · intro hr
    rw [hmsg, if_neg hr]

/-- Claim C7, witness for the amended theorem: a failed receipt whose
single log carries the error topic and a 139-character data field,
together with the one-`SLOAD` unverified walk with an empty revert
reason. -/
theorem claim_C7_error_message_amended_witness :
    ((Receipt.mk "0x0" [⟨[errorStringTopic], (List.replicate 139 'a').asString⟩]).status = "0x1" →
      GetTransactionErrorMessage
        ⟨"0x0", [⟨[errorStringTopic], (List.replicate 139 'a').asString⟩]⟩ = "") ∧
    ((Receipt.mk "0x0" [⟨[errorStringTopic], (List.replicate 139 'a').asString⟩]).status ≠ "0x1" →
      (∃ log ∈ (Receipt.mk "0x0" [⟨[errorStringTopic], (List.replicate 139 'a').asString⟩]).logs,
        log.topics.head? = some errorStringTopic ∧
        138 < log.data.length ∧
        GetTransactionErrorMessage
          ⟨"0x0", [⟨[errorStringTopic], (List.replicate 139 'a').asString⟩]⟩ = log.data) ∨
      (GetTransactionErrorMessage
          ⟨"0x0", [⟨[errorStringTopic], (List.replicate 139 'a').asString⟩]⟩ = "Transaction Failed" ∧
        ∀ log ∈ (Receipt.mk "0x0" [⟨[errorStringTopic], (List.replicate 139 'a').asString⟩]).logs,
          log.topics.head? = some errorStringTopic → log.data.length ≤ 138)) ∧
    ((("" : String) = "0x" ∨ ("" : String) = "") →
      "Transaction successful!" = "Transaction successful!") ∧
    (¬ (("" : String) = "0x" ∨ ("" : String) = "") →
      "Transaction successful!" = "") :=
  claim_C7_error_message_amended
    ⟨"0x0", [⟨[errorStringTopic], (List.replicate 139 'a').asString⟩]⟩
    [(1, ⟨"0xdead", "0x00",
      [("unverified.sol", "// No source code available - contract is not verified")],
      [("0", "unverified.sol")], []⟩)]
    [⟨1, "SSTORE", 0⟩] "" 1 "Transaction successful!"
    [⟨"SSTORE", 1, "unverified.sol", "0xdead", 1⟩] rfl

/-! ## `anvil.Service.StopAnvilProcess` (process supervisor)

`portToCmdMap` is a Go map from port to `*exec.Cmd`.  A lookup of an
absent port yields `nil`, and `cmd.Process.Kill()` then dereferences the
nil pointer — a runtime panic, not an error return. -/

/-- A recorded child process handle; `killResult` is the outcome
`cmd.Process.Kill()` would produce. -/
structure Cmd where
  killResult : Except String Unit
deriving DecidableEq

/-- Lookup in the port-to-command map. -/
def portMapLookup (m : List (Nat × Cmd)) (port : Nat) : Option Cmd :=
  match m with
  | [] => none
  | (p, cmd) :: rest => if p = port then some cmd else portMapLookup rest port

/-- Outcome of `StopAnvilProcess`: the updated map, an error return, or
a runtime panic. -/
inductive StopOutcome where
  | ok (table : List (Nat × Cmd))
  | err (msg : String) (table : List (Nat × Cmd))
  | panic (msg : String)
deriving DecidableEq

/-- `anvil.Service.StopAnvilProcess`: fetch the command for the port —
`nil` when the port has no recorded handle, making `cmd.Process.Kill()`
a nil-pointer dereference — then kill and delete the map entry. -/
def StopAnvilProcess (portToCmdMap : List (Nat × Cmd)) (port : Nat) : StopOutcome :=
  match portMapLookup portToCmdMap port with
  | none => .panic "invalid memory address or nil pointer dereference"
  | some cmd =>
    match cmd.killResult with
    | .error e => .err e portToCmdMap
    | .ok _ => .ok (portToCmdMap.filter (fun entry => entry.1 ≠ port))

/-- Claim C5, theorem at the failing input.  Stopping a port with no
recorded process handle (here port 8545 with an empty handle map, the
state after a stop that was never preceded by a matching start) panics
with a nil-pointer dereference instead of returning an error, for any
port and also after a handle was recorded for a different port. -/
theorem claim_C5_stop_unknown_port_bug :
    StopAnvilProcess [] 8545 =
      .panic "invalid memory address or nil pointer dereference" ∧
    StopAnvilProcess [(8546, ⟨.ok ()⟩)] 8545 =
      .panic "invalid memory address or nil pointer dereference" :=
  ⟨rfl, rfl⟩

/-! ## Port registry and fork creation
(back-end/src/fork/dbRepo/dbRepo.go, the db repository wrapper, and
back-end/src/fork/service.go)

The in-memory table rows are `(portNumber, active, forkId)`.  go-memdb
iterates the unique `id` index in ascending port order; the model's list
carries the rows in that iteration order.  The mutex serialisation and
the deferred lease-expiry goroutine are outside the sequential model. -/

/-- One row of the port table (`dbRepo.port`). -/
structure PortRow where
  portNumber : Nat
  active : Bool
  forkId : String
deriving DecidableEq

/-- `dbRepo.Repository.FindInactivePort`: first row (in index order)
with `active = false`. -/
def findInactivePort : List PortRow → Except String Nat
  | [] => .error "no available port"
  | r :: rest => if !r.active then .ok r.portNumber else findInactivePort rest

/-- `dbRepo.Repository.UpdatePort`: set `active` and `forkId` of the
first row with the given port number, in place; error when absent. -/
def updatePort : List PortRow → Nat → Bool → String → Except String (List PortRow)
  | [], _, _, _ => .error "port doesn't exist"
  | r :: rest, portNumber, active, forkId =>
    if r.portNumber = portNumber then
      .ok ({ r with active := active, forkId := forkId } :: rest)
    else
      match updatePort rest portNumber active forkId with
      | .error e => .error e
      | .ok rest' => .ok (r :: rest')

/-- `dbRepo.Repository.FindPortByForkId`. -/
def findPortByForkId : List PortRow → String → Except String Nat
  | [], _ => .error "port doesn't exist"
  | r :: rest, forkId =>
    if r.forkId = forkId then .ok r.portNumber else findPortByForkId rest forkId

/-- `dbRepo.Repository.FindPortStatusByForkId`. -/
def findPortStatusByForkId : List PortRow → String → Except String Bool
  | [], _ => .error "port doesn't exist"
  | r :: rest, forkId =>
    if r.forkId = forkId then .ok r.active else findPortStatusByForkId rest forkId

/-- `db.Repository.FindAndReservePort`: pick an inactive port, mark it
active under a freshly generated fork id (the uuid is an input of the
model), and return both with the updated table. -/
def FindAndReservePort (rows : List PortRow) (newForkId : String) :
    Except String (Nat × List PortRow) :=
  match findInactivePort rows with
  | .error e => .error e
  | .ok port =>
    match updatePort rows port true newForkId with
    | .error e => .error e
    | .ok rows' => .ok (port, rows')

/-- `db.Repository.ReleasePortWithForkId`: locate the row by fork id and
mark it inactive, keeping the fork id as a tombstone. -/
def ReleasePortWithForkId (rows : List PortRow) (forkId : String) :
    Except String (List PortRow) :=
  match findPortByForkId rows forkId with
  | .error e => .error e
  | .ok port => updatePort rows port false forkId

/-- `fork.Service.CreateFork` up to the spawn step, with the spawn
outcome passed in (`startResult`): reserve a port; on spawn failure
release it and surface the spawn error — when the release itself fails,
`errors.Wrap(err, releaseErr.Error())` produces `releaseErr: err`.  The
deferred lease-expiry goroutine of the success path is not modelled. -/
def CreateFork (rows : List PortRow) (newForkId : String)
    (startResult : Except String Unit) : Except String String × List PortRow :=
  match FindAndReservePort rows newForkId with
  | .error e => (.error e, rows)
  | .ok (_port, rows₁) =>
    match startResult with
    | .error e =>
      match ReleasePortWithForkId rows₁ newForkId with
      | .error releaseErr => (.error (releaseErr ++ ": " ++ e), rows₁)
      | .ok rows₂ => (.error e, rows₂)
    | .ok _ => (.ok newForkId, rows₁)

/-- After reserving under a fresh fork id, the id locates exactly the
reserved port and the release marks it — and every row carrying the id —
inactive. -/
theorem update_then_release (rows : List PortRow) (port : Nat) (fid : String) :
    ∀ rows₁, (∀ r ∈ rows, r.forkId ≠ fid) →
      updatePort rows port true fid = .ok rows₁ →
      findPortByForkId rows₁ fid = .ok port ∧
      ∃ rows₂, updatePort rows₁ port false fid = .ok rows₂ ∧
        findPortByForkId rows₂ fid = .ok port ∧
        findPortStatusByForkId rows₂ fid = .ok false ∧
        ∀ r ∈ rows₂, r.forkId = fid → r.active = false := by
  induction rows with
  | nil =>
    intro rows₁ _ h
    exact absurd h (by simp [updatePort])
  | cons r rest ih =>
    intro rows₁ hfresh h
    by_cases hp : r.portNumber = port
    · rw [updatePort, if_pos hp] at h
      rw [Except.ok.injEq] at h
      subst h
      refine ⟨by simp [findPortByForkId, hp], ?_⟩
      refine ⟨{ r with active := false, forkId := fid } :: rest, ?_, ?_, ?_, ?_⟩
      · simp [updatePort, hp]
      · simp [findPortByForkId, hp]
      · simp [findPortStatusByForkId]
      · intro x hx hxf
        rcases List.mem_cons.mp hx with hx | hx
        · subst hx; rfl
        · exact absurd hxf (hfresh x (List.mem_cons_of_mem _ hx))
    · rw [updatePort, if_neg hp] at h
      cases hrec : updatePort rest port true fid with
      | error e => rw [hrec] at h; exact absurd h (by simp)
      | ok rest₁ =>
        rw [hrec] at h
        rw [Except.ok.injEq] at h
        subst h
        have hrf : r.forkId ≠ fid := hfresh r (List.mem_cons_self ..)
        obtain ⟨hfind, rows₂', hupd, hfind₂, hstat, hall⟩ :=
          ih rest₁ (fun x hx => hfresh x (List.mem_cons_of_mem _ hx)) hrec
        refine ⟨by simp [findPortByForkId, hrf, hfind], ?_⟩
        refine ⟨r :: rows₂', ?_, ?_, ?_, ?_⟩
        · simp [updatePort, hp, hupd]
        · simp [findPortByForkId, hrf, hfind₂]
        · simp [findPortStatusByForkId, hrf, hstat]
        · intro x hx hxf
          rcases List.mem_cons.mp hx with hx | hx
          · subst hx; exact absurd hxf hrf
          · exact hall x hx hxf

/-- Claim C9.  If the spawn step fails after a port was reserved under a
fresh fork id, `CreateFork` returns exactly the spawn error, and in the
resulting registry the reserved port's row is inactive again (located by
the fork id, status `false`) and no active row carries the fork id of
the failed creation. -/
theorem claim_C9_create_fork_releases_port (rows : List PortRow) (fid : String)
    (spawnErr : String) (port : Nat) (rows₁ : List PortRow)
    (hfresh : ∀ r ∈ rows, r.forkId ≠ fid)
    (hreserve : FindAndReservePort rows fid = .ok (port, rows₁)) :
    ∃ rows₂, CreateFork rows fid (.error spawnErr) = (.error spawnErr, rows₂) ∧
      findPortByForkId rows₂ fid = .ok port ∧
      findPortStatusByForkId rows₂ fid = .ok false ∧
      ∀ r ∈ rows₂, r.forkId = fid → r.active = false := by
  unfold FindAndReservePort at hreserve
  cases hfp : findInactivePort rows with
  | error e => rw [hfp] at hreserve; exact absurd hreserve (by simp)
  | ok port' =>
    rw [hfp] at hreserve
    dsimp only at hreserve
    cases hup : updatePort rows port' true fid with
    | error e => rw [hup] at hreserve; exact absurd hreserve (by simp)
    | ok rows₁' =>
      rw [hup] at hreserve
      rw [Except.ok.injEq, Prod.mk.injEq] at hreserve
      obtain ⟨hport, hrows⟩ := hreserve
      rw [hport, hrows] at hup
      obtain ⟨hfind, rows₂, hupd, hfind₂, hstat, hall⟩ :=
        update_then_release rows port fid rows₁ hfresh hup
      refine ⟨rows₂, ?_, hfind₂, hstat, hall⟩
      unfold CreateFork FindAndReservePort ReleasePortWithForkId
      simp only [hfp, hport, hup, hfind, hupd]

/-- Claim C9, witness: a one-row registry with seed fork id `seed`; the
reservation hands out port 8545 under fork id `fork-1`, the spawn fails,
and the fork is released. -/
theorem claim_C9_create_fork_releases_port_witness :
    ∃ rows₂,
      CreateFork [⟨8545, false, "seed"⟩] "fork-1" (.error "spawn failed") =
        (.error "spawn failed", rows₂) ∧
      findPortByForkId rows₂ "fork-1" = .ok 8545 ∧
      findPortStatusByForkId rows₂ "fork-1" = .ok false ∧
      ∀ r ∈ rows₂, r.forkId = "fork-1" → r.active = false :=
  claim_C9_create_fork_releases_port [⟨8545, false, "seed"⟩] "fork-1"
    "spawn failed" 8545 [⟨8545, true, "fork-1"⟩] (by decide) rfl

/-! ## ERC-20 balance probe (back-end/src/fork/dbRepo/dbRepo.go, package
`balance`)

`SetERC20Balance` probes storage slots 0..99.  The JSON-RPC side effects
(snapshot, storage write, `balanceOf` call, revert) are abstracted as an
oracle indexed by the slot number of the iteration that issues them; the
keccak-256 function is a parameter of the embedding.  The token address
only routes through the RPC oracle and is dropped from the model. -/

/-- Go `encoding/hex.DecodeString` over the character list: pairs of hex
digits to byte values, the first invalid character wins, and a trailing
lone character is an odd-length error. -/
def hexDecode : List Char → Except String (List Nat)
  | [] => .ok []
  | [_] => .error "encoding/hex: odd length hex string"
  | a :: b :: rest =>
    match hexDigitVal? a, hexDigitVal? b with
    | some x, some y =>
      match hexDecode rest with
      | .error e => .error e
      | .ok bytes => .ok ((x * 16 + y) :: bytes)
    | _, _ => .error "encoding/hex: invalid byte"

/-- Lower-case hex digit of a value below 16. -/
def hexEncodeChar (n : Nat) : Char :=
  if n < 10 then Char.ofNat ('0'.toNat + n) else Char.ofNat ('a'.toNat + (n - 10))

/-- Go `encoding/hex.EncodeToString` (lower case). -/
def hexEncode (bytes : List Nat) : String :=
  ((bytes.map fun b => [hexEncodeChar (b / 16), hexEncodeChar (b % 16)]).flatten).asString

/-- Go `fmt.Sprintf("%064s", s)` / `%064v`: left-pad with `'0'` to width
64, leaving longer strings unchanged. -/
def padZeros64 (s : String) : String :=
  ((List.replicate (64 - s.length) '0') ++ s.toList).asString

/-- Go `strings.TrimPrefix(account, "0x")`. -/
def trim0x (s : String) : String :=
  if "0x".toList.isPrefixOf s.toList then (s.toList.drop 2).asString else s

/-- The byte string `balance.getSlot` feeds to keccak-256: the hex
decoding of the zero-padded trimmed account followed by the zero-padded
decimal rendering (`%064v`) of the slot number. -/
def getSlotData (account : String) (slotNumber : Nat) : Except String (List Nat) :=
  hexDecode (padZeros64 (trim0x account) ++ padZeros64 (toString slotNumber)).toList

/-- `balance.getSlot` with the keccak-256 function passed in: `0x`
followed by the hex encoding of the hash of the decoded data. -/
def getSlot (keccak : List Nat → List Nat) (account : String) (slotNumber : Nat) :
    Except String String :=
  match getSlotData account slotNumber with
  | .error e => .error e
  | .ok data => .ok ("0x" ++ hexEncode (keccak data))

/-- Modelled from the spec's words, for comparison with the code:
`pad32(slot_number)`, the 32-byte big-endian encoding of the slot
number. -/
def pad32Bytes (n : Nat) : List Nat :=
  (List.range 32).map fun i => n / 256 ^ (31 - i) % 256

/-- Modelled from the spec's words, for comparison with the code: the
claimed hash preimage `pad32(user) || pad32(slot_number)` — the padded
user address bytes followed by the 32-byte big-endian slot number. -/
def specSlotPreimage (account : String) (slotNumber : Nat) : Except String (List Nat) :=
  match hexDecode (padZeros64 (trim0x account)).toList with
  | .error e => .error e
  | .ok addr => .ok (addr ++ pad32Bytes slotNumber)

/-- Per-iteration outcomes of the four RPC calls the probe issues. -/
structure BalanceOracle where
  snapshotResult : Nat → Except String String
  changeSlotResult : Nat → Except String Unit
  callResult : Nat → Except String String
  revertResult : Nat → Except String Unit

/-- Whether a Go call returned without error. -/
def exceptIsOk {α : Type} : Except String α → Bool
  | .ok _ => true
  | .error _ => false

/-- The probe loop of `balance.Service.SetERC20Balance`, with the
remaining iteration count as the second argument (the Go loop runs
`slotNumber` from 0 while `slotNumber < 100`).  On a failed comparison
whose revert also fails, the code executes `return err` where `err` is
the `nil` error of the preceding successful balance fetch — reporting
success. -/
def setERC20BalanceLoop (keccak : List Nat → List Nat) (o : BalanceOracle)
    (userAddress balance : String) : Nat → Nat → Except String Unit
  | _, 0 => .error "Mapping slot for given address not found!"
  | slotNumber, fuel + 1 =>
    match o.snapshotResult slotNumber with
    | .error e => .error e
    | .ok _snapshot =>
      match getSlot keccak userAddress slotNumber with
      | .error e => .error e
      | .ok _balanceSlot =>
        match o.changeSlotResult slotNumber with
        | .error e => .error e
        | .ok _ =>
          match o.callResult slotNumber with
          | .error e => .error e
          | .ok currBalance =>
            if currBalance = balance then .ok ()
            else
              match o.revertResult slotNumber with
              | .error _ => .ok ()
              | .ok _ =>
                setERC20BalanceLoop keccak o userAddress balance (slotNumber + 1) fuel

/-- `balance.Service.SetERC20Balance`: probe slots 0..99. -/
def SetERC20Balance (keccak : List Nat → List Nat) (o : BalanceOracle)
    (userAddress balance : String) : Except String Unit :=
  setERC20BalanceLoop keccak o userAddress balance 0 100

/-- A call that did not error returned a value. -/
theorem exceptIsOk_ok {α : Type} {e : Except String α} (h : exceptIsOk e = true) :
    ∃ a, e = .ok a := by
  cases e with
  | ok a => exact ⟨a, rfl⟩
  | error m => simp [exceptIsOk] at h

/-- Hex decoding distributes over appending when the first part has even
length. -/
theorem hexDecode_append : ∀ (l1 : List Char), l1.length % 2 = 0 → ∀ (l2 : List Char),
    hexDecode (l1 ++ l2) =
      (match hexDecode l1 with
        | .error e => .error e
        | .ok a =>
          match hexDecode l2 with
          | .error e => .error e
          | .ok b => .ok (a ++ b))
  | [], _, l2 => by
    simp only [List.nil_append, hexDecode]
    cases hexDecode l2 <;> rfl
  | [_], h, _ => by simp at h
  | a :: b :: rest, h, l2 => by
    have hr : rest.length % 2 = 0 := by
      simp only [List.length_cons] at h
      omega
    have ih := hexDecode_append rest hr l2
    simp only [List.cons_append, hexDecode]
    cases hexDigitVal? a with
    | none => cases hexDigitVal? b <;> rfl
    | some x =>
      cases hexDigitVal? b with
      | none => rfl
      | some y =>
        simp only [List.append_eq, ih]
        cases hexDecode rest <;> cases hexDecode l2 <;> rfl

/-- Zero-padding the decimal rendering of a single-digit slot number
decodes to its 32-byte big-endian encoding. -/
theorem hexDecode_padded_digit : ∀ n ≤ 9,
    hexDecode (padZeros64 (toString n)).toList = .ok (pad32Bytes n) := by
  intro n hn
  interval_cases n <;> decide

/-- For slot numbers 0–9 the code's hash preimage agrees with the
spec's `pad32(user) || pad32(slot_number)`. -/
theorem getSlotData_agrees_below_ten (user : String)
    (huser : (trim0x user).length ≤ 64) :
    ∀ n ≤ 9, getSlotData user n = specSlotPreimage user n := by
  intro n hn
  have hlen : (padZeros64 (trim0x user)).toList.length % 2 = 0 := by
    show ((List.replicate (64 - (trim0x user).length) '0') ++ (trim0x user).toList).length % 2 = 0
    simp only [List.length_append, List.length_replicate]
    have : (trim0x user).toList.length = (trim0x user).length := rfl
    omega
  unfold getSlotData specSlotPreimage
  rw [show (padZeros64 (trim0x user) ++ padZeros64 (toString n)).toList
      = (padZeros64 (trim0x user)).toList ++ (padZeros64 (toString n)).toList
    from String.data_append ..]
  rw [hexDecode_append _ hlen, hexDecode_padded_digit n hn]

/-- Characterisation of the probe loop when every RPC call of the window
succeeds and every revert succeeds: it reports success exactly when some
probed slot's `balanceOf` string equals the requested balance string,
and the mapping-slot-not-found error exactly when none does. -/
theorem setERC20BalanceLoop_spec (keccak : List Nat → List Nat) (o : BalanceOracle)
    (user balance : String) :
    ∀ (fuel start : Nat),
      (∀ i, start ≤ i → i < start + fuel → exceptIsOk (o.snapshotResult i) = true) →
      (∀ i, start ≤ i → i < start + fuel → exceptIsOk (getSlot keccak user i) = true) →
      (∀ i, start ≤ i → i < start + fuel → exceptIsOk (o.changeSlotResult i) = true) →
      (∀ i, start ≤ i → i < start + fuel → exceptIsOk (o.callResult i) = true) →
      (∀ i, start ≤ i → i < start + fuel → o.revertResult i = .ok ()) →
      (setERC20BalanceLoop keccak o user balance start fuel = .ok () ↔
        ∃ n, start ≤ n ∧ n < start + fuel ∧ o.callResult n = .ok balance) ∧
      (setERC20BalanceLoop keccak o user balance start fuel =
          .error "Mapping slot for given address not found!" ↔
        ∀ n, start ≤ n → n < start + fuel → o.callResult n ≠ .ok balance) := by
  intro fuel
  induction fuel with
  | zero =>
    intro start _ _ _ _ _
    refine ⟨⟨fun h => ?_, fun h => ?_⟩, fun _ n h1 h2 => by omega, fun _ => rfl⟩
    · exact absurd h (by simp [setERC20BalanceLoop])
    · obtain ⟨n, h1, h2, -⟩ := h
      omega
  | succ fuel ih =>
    intro start hsnap hslot hchange hcall hrevert
    obtain ⟨s, hs⟩ := exceptIsOk_ok (hsnap start (le_refl _) (by omega))
    obtain ⟨sl, hsl⟩ := exceptIsOk_ok (hslot start (le_refl _) (by omega))
    obtain ⟨c, hc⟩ := exceptIsOk_ok (hchange start (le_refl _) (by omega))
    obtain ⟨v, hv⟩ := exceptIsOk_ok (hcall start (le_refl _) (by omega))
    rw [show setERC20BalanceLoop keccak o user balance start (fuel + 1)
        = (if v = balance then .ok ()
           else match o.revertResult start with
             | .error _ => .ok ()
             | .ok _ => setERC20BalanceLoop keccak o user balance (start + 1) fuel)
      from by simp only [setERC20BalanceLoop, hs, hsl, hc, hv]]
    by_cases hvb : v = balance
    · rw [if_pos hvb]
      constructor
      · constructor
        · intro _
          exact ⟨start, le_refl _, by omega, by rw [hv, hvb]⟩
        · intro _; rfl
      · constructor
        · intro h; exact absurd h (by simp)
        · intro hall
          exact absurd (by rw [hv, hvb]) (hall start (le_refl _) (by omega))
    · rw [if_neg hvb, hrevert start (le_refl _) (by omega)]
      have hnotstart : o.callResult start ≠ .ok balance := by
        rw [hv]
        intro hcontra
        exact hvb (by injection hcontra)
      obtain ⟨ih1, ih2⟩ := ih (start + 1)
        (fun i h1 h2 => hsnap i (by omega) (by omega))
        (fun i h1 h2 => hslot i (by omega) (by omega))
        (fun i h1 h2 => hchange i (by omega) (by omega))
        (fun i h1 h2 => hcall i (by omega) (by omega))
        (fun i h1 h2 => hrevert i (by omega) (by omega))
      constructor
      · rw [ih1]
        constructor
        · rintro ⟨n, h1, h2, h3⟩
          exact ⟨n, by omega, by omega, h3⟩
        · rintro ⟨n, h1, h2, h3⟩
          refine ⟨n, ?_, by omega, h3⟩
          rcases Nat.eq_or_lt_of_le h1 with h | h
          · exact absurd (h ▸ h3) hnotstart
          · omega
      · rw [ih2]
        constructor
        · intro hall n h1 h2
          rcases Nat.eq_or_lt_of_le h1 with h | h
          · exact h ▸ hnotstart
          · exact hall n (by omega) (by omega)
        · intro hall n h1 h2
          exact hall n (by omega) (by omega)

/-- Claim C6, counterexample.  For slot number 10 the code's hash
preimage ends in the byte 0x10 — the decimal rendering `"10"` of the
slot number read back as hex — while `pad32(slot_number)` ends in the
byte 0x0a, so the storage slot written is the keccak-256 image of a
different byte string than the claimed `pad32(user) || pad32(10)`
(witnessed through the identity hash). -/
theorem claim_C6_counterexample :
    getSlotData "0x1111111111111111111111111111111111111111" 10 ≠
      specSlotPreimage "0x1111111111111111111111111111111111111111" 10 ∧
    getSlot (fun d => d) "0x1111111111111111111111111111111111111111" 10 ≠
      (match specSlotPreimage "0x1111111111111111111111111111111111111111" 10 with
        | .error e => .error e
        | .ok data => .ok ("0x" ++ hexEncode data)) := by
  exact ⟨by decide, by decide⟩

/-- Claim C6, amended.  When every per-iteration RPC call succeeds and
every revert succeeds, `SetERC20Balance` probes slot numbers 0..99,
snapshotting and writing `keccak256` of the code's preimage each
iteration, succeeds exactly when some probe's raw `eth_call` string
equals the caller-supplied balance string (no numeric normalisation),
and returns the mapping-slot-not-found error exactly when none does.
The slot written is `keccak256(pad32(user) || pad32(slot_number))` only
for slot numbers 0–9; the code zero-pads the decimal rendering of the
slot number and hex-decodes it, which diverges from `pad32` at slot 10
and beyond. -/
theorem claim_C6_balance_probe_amended (keccak : List Nat → List Nat)
    (o : BalanceOracle) (user balance : String)
    (huser : (trim0x user).length ≤ 64)
    (hsnap : ∀ i < 100, exceptIsOk (o.snapshotResult i) = true)
    (hslot : ∀ i < 100, exceptIsOk (getSlot keccak user i) = true)
    (hchange : ∀ i < 100, exceptIsOk (o.changeSlotResult i) = true)
    (hcall : ∀ i < 100, exceptIsOk (o.callResult i) = true)
    (hrevert : ∀ i < 100, o.revertResult i = .ok ()) :
    (SetERC20Balance keccak o user balance = .ok () ↔
      ∃ n < 100, o.callResult n = .ok balance) ∧
    (SetERC20Balance keccak o user balance =
        .error "Mapping slot for given address not found!" ↔
      ∀ n < 100, o.callResult n ≠ .ok balance) ∧
    (∀ n data, getSlotData user n = .ok data →
      getSlot keccak user n = .ok ("0x" ++ hexEncode (keccak data))) ∧
    (∀ n ≤ 9, getSlotData user n = specSlotPreimage user n) := by
  obtain ⟨h1, h2⟩ := setERC20BalanceLoop_spec keccak o user balance 100 0
    (fun i _ h => hsnap i (by omega))
    (fun i _ h => hslot i (by omega))
    (fun i _ h => hchange i (by omega))
    (fun i _ h => hcall i (by omega))
    (fun i _ h => hrevert i (by omega))
  refine ⟨?_, ?_, ?_, getSlotData_agrees_below_ten user huser⟩
  · rw [SetERC20Balance, h1]
    constructor
    · rintro ⟨n, -, h2', h3⟩; exact ⟨n, h2', h3⟩
    · rintro ⟨n, h2', h3⟩; exact ⟨n, by omega, h2', h3⟩
  · rw [SetERC20Balance, h2]
    constructor
    · intro hall n hn; exact hall n (by omega) hn
    · intro hall n _ hn; exact hall n hn
  · intro n data hdata
    rw [getSlot, hdata]

set_option maxRecDepth 8192 in
/-- Claim C6, witness for the amended theorem: the trivial hash, an
oracle whose `balanceOf` always returns `0xff`, and the empty user
string (padded to 64 zeros); the probe succeeds at slot 0. -/
theorem claim_C6_balance_probe_amended_witness :
    (SetERC20Balance (fun _ => [])
        ⟨fun _ => .ok "1", fun _ => .ok (), fun _ => .ok "0xff", fun _ => .ok ()⟩
        "" "0xff" = .ok () ↔
      ∃ n < 100,
        (fun _ => Except.ok (ε := String) "0xff") n = .ok "0xff") ∧
    (SetERC20Balance (fun _ => [])
        ⟨fun _ => .ok "1", fun _ => .ok (), fun _ => .ok "0xff", fun _ => .ok ()⟩
        "" "0xff" = .error "Mapping slot for given address not found!" ↔
      ∀ n < 100,
        (fun _ => Except.ok (ε := String) "0xff") n ≠ .ok "0xff") ∧
    (∀ n data, getSlotData "" n = .ok data →
      getSlot (fun _ => []) "" n = .ok ("0x" ++ hexEncode ((fun _ => ([] : List Nat)) data))) ∧
    (∀ n ≤ 9, getSlotData "" n = specSlotPreimage "" n) :=
  claim_C6_balance_probe_amended (fun _ => [])
    ⟨fun _ => .ok "1", fun _ => .ok (), fun _ => .ok "0xff", fun _ => .ok ()⟩
    "" "0xff" (by decide) (fun i _ => rfl) (by decide)
    (fun i _ => rfl) (fun i _ => rfl) (fun i _ => rfl)

/-- The probe loop reports success as soon as a failed comparison is
followed by a failed revert. -/
theorem setERC20BalanceLoop_revert_fail (keccak : List Nat → List Nat)
    (o : BalanceOracle) (user balance : String) :
    ∀ (fuel start n : Nat), start ≤ n → n < start + fuel →
      (∀ i, start ≤ i → i ≤ n →
        exceptIsOk (o.snapshotResult i) = true ∧
        exceptIsOk (getSlot keccak user i) = true ∧
        exceptIsOk (o.changeSlotResult i) = true ∧
        exceptIsOk (o.callResult i) = true ∧ o.callResult i ≠ .ok balance) →
      (∀ i, start ≤ i → i < n → o.revertResult i = .ok ()) →
      (∃ e, o.revertResult n = .error e) →
      setERC20BalanceLoop keccak o user balance start fuel = .ok () := by
  intro fuel
  induction fuel with
  | zero =>
    intro start n h1 h2 _ _ _
    omega
  | succ fuel ih =>
    intro start n h1 h2 hsteps hrevertOk hrevertFail
    obtain ⟨hsnap, hslot, hchange, hcall, hne⟩ := hsteps start (le_refl _) h1
    obtain ⟨s, hs⟩ := exceptIsOk_ok hsnap
    obtain ⟨sl, hsl⟩ := exceptIsOk_ok hslot
    obtain ⟨c, hc⟩ := exceptIsOk_ok hchange
    obtain ⟨v, hv⟩ := exceptIsOk_ok hcall
    have hvb : v ≠ balance := by
      intro hcontra
      exact hne (by rw [hv, hcontra])
    rw [show setERC20BalanceLoop keccak o user balance start (fuel + 1)
        = (match o.revertResult start with
           | .error _ => .ok ()
           | .ok _ => setERC20BalanceLoop keccak o user balance (start + 1) fuel)
      from by simp only [setERC20BalanceLoop, hs, hsl, hc, hv, if_neg hvb]]
    rcases Nat.eq_or_lt_of_le h1 with heq | hlt
    · obtain ⟨e, he⟩ := hrevertFail
      rw [← heq] at he
      rw [he]
    · rw [hrevertOk start (le_refl _) hlt]
      exact ih (start + 1) n hlt (by omega)
        (fun i hi1 hi2 => hsteps i (by omega) hi2)
        (fun i hi1 hi2 => hrevertOk i (by omega) hi2)
        hrevertFail

/-- Claim C10.  If every probe up to iteration `n` has its RPC calls
succeed with a `balanceOf` string differing from the requested balance,
the reverts before `n` succeed, and the revert at `n` fails, then
`SetERC20Balance` returns success (`nil`): the revert-failure branch
executes `return err` where `err` is the nil error of the preceding
successful balance fetch, even though the target balance was not
established and state was not reverted. -/
theorem claim_C10_revert_failure_returns_nil (keccak : List Nat → List Nat)
    (o : BalanceOracle) (user balance : String) (n : Nat) (hn : n < 100)
    (hsteps : ∀ i ≤ n,
      exceptIsOk (o.snapshotResult i) = true ∧
      exceptIsOk (getSlot keccak user i) = true ∧
      exceptIsOk (o.changeSlotResult i) = true ∧
      exceptIsOk (o.callResult i) = true ∧ o.callResult i ≠ .ok balance)
    (hrevertOk : ∀ i < n, o.revertResult i = .ok ())
    (hrevertFail : ∃ e, o.revertResult n = .error e) :
    SetERC20Balance keccak o user balance = .ok () :=
  setERC20BalanceLoop_revert_fail keccak o user balance 100 0 n (by omega) (by omega)
    (fun i _ hi => hsteps i hi) (fun i _ hi => hrevertOk i hi) hrevertFail

/-- Claim C10, witness: the very first probe's comparison fails
(`balanceOf` returns `0x0`, requested `0xff`) and its revert errors;
the probe reports success. -/
theorem claim_C10_revert_failure_returns_nil_witness :
    SetERC20Balance (fun _ => [])
      ⟨fun _ => .ok "1", fun _ => .ok (), fun _ => .ok "0x0",
        fun _ => .error "revert failed"⟩
      "" "0xff" = .ok () :=
  claim_C10_revert_failure_returns_nil (fun _ => [])
    ⟨fun _ => .ok "1", fun _ => .ok (), fun _ => .ok "0x0",
      fun _ => .error "revert failed"⟩
    "" "0xff" 0 (by omega)
    (fun i hi => ⟨rfl, by interval_cases i; decide, rfl, rfl, by simp⟩)
    (fun i hi => by omega)
    ⟨"revert failed", rfl⟩

end Simulations
